import Mathlib

/-!
Shallow embedding of `native/android/system_fonts.cpp` (the NDK system-font
iterator) and verification of the frozen claims about it.

Modelling conventions:
* libxml2 nodes become `XmlNode`: a tag name, an attribute list, text content
  (meaningful for nodes named `"text"`) and a child list.  Pointer positions
  of the C code become index pairs into the tree (root-child index of the
  enclosing `family`, child index of the `font` inside it).
* machine integers are `Nat`/`Int` with explicit `% 2^w` where the C code
  narrows (`long` → `uint16_t`/`uint32_t`).
* `float`/`double` values are represented as `Rat`; `strtod` is modelled on
  decimal forms (sign, digits, fraction, exponent).  Hexadecimal, `inf` and
  `nan` inputs are not modelled — no claim involves them.
* fallible C control flow (abort via `LOG_ALWAYS_FATAL_IF`, null-pointer
  dereference) is modelled with `Except ApiError`.
* the two loops of `ASystemFontIterator_next` are modelled with explicit
  fuel: a result of `none` means the call did not terminate within the given
  fuel; a nontermination proof shows the result is `none` for every fuel.
-/

/-- An XML element or text node: tag name, attributes (name, value) in
document order, text content (used when `name = "text"`), children. -/
inductive XmlNode where
  | node (name : String) (attrs : List (String × String)) (content : String)
      (children : List XmlNode)

instance : Inhabited XmlNode := ⟨XmlNode.node "" [] "" []⟩

def XmlNode.name : XmlNode → String
  | .node n _ _ _ => n

def XmlNode.attrs : XmlNode → List (String × String)
  | .node _ a _ _ => a

def XmlNode.content : XmlNode → String
  | .node _ _ c _ => c

def XmlNode.children : XmlNode → List XmlNode
  | .node _ _ _ ch => ch

/-- A parsed document (`xmlDoc`).  `root` models `xmlDocGetRootElement`,
which can be null for a degenerate document. -/
structure Doc where
  root : Option XmlNode

/-- `xmlGetProp`: value of the first attribute with the given name. -/
def xmlGetProp (n : XmlNode) (attr : String) : Option String :=
  (n.attrs.find? (fun p => p.1 == attr)).map (fun p => p.2)

/-- `firstElement`: index of the first child whose tag name matches. -/
def firstElementIdx (children : List XmlNode) (tag : String) : Option Nat :=
  children.findIdx? (fun c => c.name == tag)

/-- `nextSibling`: walking `node->next`, the index of the first later sibling
whose tag name matches. -/
def nextSiblingIdx (children : List XmlNode) (tag : String) (i : Nat) : Option Nat :=
  (firstElementIdx (children.drop (i + 1)) tag).map (fun k => i + 1 + k)

/-- `xmlNodeListGetString`: concatenation of the text children's contents
(element children contribute nothing). -/
def xmlNodeListGetString (children : List XmlNode) : String :=
  String.join (children.filterMap (fun c => if c.name == "text" then some c.content else none))

/-- The XML whitespace set of `xmlTrim` (space, CR, LF, tab).  All four are
single ASCII bytes, so byte-wise trimming equals character-wise trimming. -/
def isXmlSpace (c : Char) : Bool :=
  c == ' ' || c == '\r' || c == '\n' || c == '\t'

/-- `xmlTrim`: strip XML whitespace from both ends. -/
def xmlTrim (s : String) : String :=
  String.mk (((s.data.dropWhile isXmlSpace).reverse.dropWhile isXmlSpace).reverse)

/-- Accumulate a longest prefix of decimal digits into a value, stopping at
the first non-digit (the common core of `strtol`/`strtod` digit scans). -/
def digitsToNat : List Char → Nat → Nat
  | [], acc => acc
  | c :: rest, acc =>
    if c.isDigit then digitsToNat rest (acc * 10 + (c.toNat - 48)) else acc

/-- The C locale `isspace` set skipped by `strtol`/`strtod`. -/
def isStrtolSpace (c : Char) : Bool :=
  c == ' ' || c == '\t' || c == '\n' || c == '\r' || c.toNat == 11 || c.toNat == 12

/-- `strtol(s, nullptr, 10)`: skip spaces, optional sign, longest digit
prefix; 0 when no digits are found.  (Saturation at `LONG_MAX`/`LONG_MIN`
is not modelled; no claim reaches it.) -/
def strtol10 (s : String) : Int :=
  let cs := s.data.dropWhile isStrtolSpace
  match cs with
  | '-' :: rest => -(digitsToNat rest 0 : Int)
  | '+' :: rest => (digitsToNat rest 0 : Int)
  | _ => (digitsToNat cs 0 : Int)

/-- The implicit C conversion `long` → `uint16_t` (reduction mod 2^16). -/
def toUInt16Wrap (x : Int) : Nat := (x % 65536).toNat

/-- The implicit C conversion `long` → `uint32_t` (reduction mod 2^32). -/
def toUInt32Wrap (x : Int) : Nat := (x % 4294967296).toNat

/-- UTF-8 encoding of one character, as the byte values libxml2 stores in an
`xmlChar*` string. -/
def utf8Bytes (c : Char) : List Nat :=
  let n := c.toNat
  if n < 128 then [n]
  else if n < 2048 then [192 + n / 64, 128 + n % 64]
  else if n < 65536 then [224 + n / 4096, 128 + (n / 64) % 64, 128 + n % 64]
  else [240 + n / 262144, 128 + (n / 4096) % 64, 128 + (n / 64) % 64, 128 + n % 64]

/-- The byte sequence of a string as libxml2 sees it. -/
def strBytes (s : String) : List Nat :=
  (s.data.map utf8Bytes).flatten

/-- `xmlStrlen`: length in bytes. -/
def xmlStrlenBytes (s : String) : Nat :=
  (strBytes s).length

/-- The tag packing of `copyFont`: byte 0 into the most significant byte of a
32-bit value (`b0 << 24 | b1 << 16 | b2 << 8 | b3`, then the cast to
`uint32_t`). -/
def packTag (s : String) : Nat :=
  let bs := strBytes s
  ((bs.getD 0 0) * 16777216 + (bs.getD 1 0) * 65536 + (bs.getD 2 0) * 256 + bs.getD 3 0)
    % 4294967296

/-- The decimal-significand part of `strtod`: longest `digits[.digits]`
prefix, as (significand digits' value, number of fraction digits, remaining
input); `none` when no digit is found at all (no conversion). -/
def parseUnsignedDec (cs : List Char) : Option (Nat × Nat × List Char) :=
  let intDs := cs.takeWhile Char.isDigit
  let rest1 := cs.dropWhile Char.isDigit
  let fracDs :=
    match rest1 with
    | '.' :: t => t.takeWhile Char.isDigit
    | _ => []
  let rest2 :=
    match rest1 with
    | '.' :: t => t.dropWhile Char.isDigit
    | _ => rest1
  if intDs.isEmpty && fracDs.isEmpty then none
  else some (digitsToNat (intDs ++ fracDs) 0, fracDs.length, rest2)

/-- The optional exponent part of `strtod`: `e`/`E`, optional sign, at least
one digit (otherwise the exponent part is not consumed and counts as 0). -/
def parseExp (rest : List Char) : Int :=
  match rest with
  | e :: t =>
    if e == 'e' || e == 'E' then
      match t with
      | '-' :: u => if (u.takeWhile Char.isDigit).isEmpty then 0
                    else -(digitsToNat u 0 : Int)
      | '+' :: u => if (u.takeWhile Char.isDigit).isEmpty then 0
                    else (digitsToNat u 0 : Int)
      | u => if (u.takeWhile Char.isDigit).isEmpty then 0
             else (digitsToNat u 0 : Int)
    else 0
  | [] => 0

/-- Assemble `sgn * mant * 10 ^ (ex - fracLen)` as a rational. -/
def decValue (sgn : Int) (mant : Nat) (fracLen : Nat) (ex : Int) : Rat :=
  let e : Int := ex - fracLen
  if 0 ≤ e then mkRat (sgn * mant * 10 ^ e.toNat) 1
  else mkRat (sgn * mant) (10 ^ (-e).toNat)

/-- `strtod(s, nullptr)` on decimal forms: skip spaces, optional sign,
significand, optional exponent; 0 when no conversion is possible. -/
def strtodQ (s : String) : Rat :=
  let cs := s.data.dropWhile isStrtolSpace
  match cs with
  | '-' :: rest =>
    match parseUnsignedDec rest with
    | none => 0
    | some (m, fl, r) => decValue (-1) m fl (parseExp r)
  | '+' :: rest =>
    match parseUnsignedDec rest with
    | none => 0
    | some (m, fl, r) => decValue 1 m fl (parseExp r)
  | _ =>
    match parseUnsignedDec cs with
    | none => 0
    | some (m, fl, r) => decValue 1 m fl (parseExp r)

example : strtodQ "1.5" = mkRat 3 2 := by decide
example : strtodQ "abc" = 0 := by decide
example : strtol10 "abc" = 0 := by decide
example : strtol10 " 700" = 700 := by decide
example : packTag "wght" = 2003265652 := by decide
example : xmlStrlenBytes "wght" = 4 := by decide

/-- The `ASystemFont` record populated by `copyFont`.  `mWeight` and
`mCollectionIndex` are the `uint16_t`/`uint32_t` fields as `Nat`,
`mAxes` pairs the packed tag with the parsed style value. -/
structure ASystemFont where
  mFilePath : String
  mLocale : Option String
  mWeight : Nat
  mItalic : Bool
  mCollectionIndex : Nat
  mAxes : List (Nat × Rat)
deriving DecidableEq

/-- In libxml2 an `xmlDoc` is the top of its tree: its `parent` pointer is
always null.  `copyFont` reads `ite->mXmlDoc->parent`, so this is the node
its locale lookup actually consults. -/
def docParent (_d : Doc) : Option XmlNode := none

/-- One iteration of the axis loop of `copyFont` (lines 128-144): require a
`tag` attribute of byte length 4, then a present `stylevalue` attribute;
yield the packed tag and the `strtod` value. -/
def axisEntry (axis : XmlNode) : Option (Nat × Rat) :=
  match xmlGetProp axis "tag" with
  | none => none
  | some tagStr =>
    if xmlStrlenBytes tagStr = 4 then
      match xmlGetProp axis "stylevalue" with
      | none => none
      | some sv => some (packTag tagStr, strtodQ sv)
    else none

/-- `copyFont` (lines 96-146): extract an `ASystemFont` from a font node.
The axis loop `firstElement` + repeated `nextSibling` visits exactly the
children named `"axis"` in document order.  The locale is read — as in the
source — from the document's parent node (`docParent`), not from the font
node's family. -/
def copyFont (d : Doc) (fontNode : XmlNode) : ASystemFont :=
  { mFilePath := "/system/fonts/" ++ xmlTrim (xmlNodeListGetString fontNode.children)
  , mWeight :=
      match xmlGetProp fontNode "weight" with
      | some w => toUInt16Wrap (strtol10 w)
      | none => 400
  , mItalic :=
      match xmlGetProp fontNode "style" with
      | some st => st == "italic"
      | none => false
  , mCollectionIndex :=
      match xmlGetProp fontNode "index" with
      | some ix => toUInt32Wrap (strtol10 ix)
      | none => 0
  , mLocale := (docParent d).bind (fun p => xmlGetProp p "lang")
  , mAxes := (fontNode.children.filter (fun c => c.name == "axis")).filterMap axisEntry }

/-- The children of the document's root element (empty when the root is
absent). -/
def rootChildren (d : Doc) : List XmlNode :=
  match d.root with
  | none => []
  | some r => r.children

/-- The children of the family at root-child index `famIdx`. -/
def familyChildren (d : Doc) (famIdx : Nat) : List XmlNode :=
  ((rootChildren d).getD famIdx default).children

/-- The font node at position (`famIdx`, `fontIdx`). -/
def fontNodeAt (d : Doc) (famIdx fontIdx : Nat) : XmlNode :=
  (familyChildren d famIdx).getD fontIdx default

/-- The family-scan of `findFirstFontNode` (lines 157-176): `firstElement`
for the first family plus the `nextSibling` retry loop, fused into one
left-to-right scan of the root's children — at each child named `"family"`,
stop at its first `"font"` child if it has one. -/
def findFontFrom : List XmlNode → Nat → Option (Nat × Nat)
  | [], _ => none
  | c :: rest, idx =>
    if c.name == "family" then
      match firstElementIdx c.children "font" with
      | some f => some (idx, f)
      | none => findFontFrom rest (idx + 1)
    else findFontFrom rest (idx + 1)

/-- `findFirstFontNode`: position of the first font of the first non-empty
family, or `none`. -/
def findFirstFontNode (d : Doc) : Option (Nat × Nat) :=
  match d.root with
  | none => none
  | some r => findFontFrom r.children 0

/-- Iterator state.  Field configuration of the C struct:
`unstarted d` = `{mXmlDoc = d, mFontNode = null}`,
`atNode d i j` = `{mXmlDoc = d, mFontNode = j-th child of i-th root child}`,
`exhausted` = `{mXmlDoc = null, mFontNode = null}` (the document has been
released). -/
inductive IterState where
  | unstarted (d : Doc)
  | atNode (d : Doc) (famIdx fontIdx : Nat)
  | exhausted

/-- The filesystem as the iterator observes it: `isReg path` is true when
`stat` succeeds on `path` and `S_ISREG` holds (`isFontFileAvailable`). -/
structure Env where
  isReg : String → Bool

/-- `isFontFileAvailable` (lines 148-155). -/
def isFontFileAvailable (env : Env) (filePath : String) : Bool :=
  env.isReg filePath

/-- `ASystemFontIterator_open` after `xmlReadFile`: a successful parse gives
`{mXmlDoc = d, mFontNode = null}` (unstarted); a failed parse gives
`{mXmlDoc = null, mFontNode = null}`, the same configuration as the
exhausted state. -/
def iteratorOpen (parsed : Option Doc) : IterState :=
  match parsed with
  | some d => .unstarted d
  | none => .exhausted

/-- The `while (nextNode == nullptr)` loop of `ASystemFontIterator_next`
(lines 208-214), fueled.  Each iteration recomputes
`nextSibling(ite->mFontNode->parent, FAMILY_TAG)` — `famIdx` never
advances, exactly as in the source.  `some r` = the loop finished with
`nextNode = r`; `none` = the loop did not finish within the fuel. -/
def advanceLoop (rootCh : List XmlNode) (famIdx : Nat) : Nat → Option (Option (Nat × Nat))
  | 0 => none
  | fuel + 1 =>
    match nextSiblingIdx rootCh "family" famIdx with
    | none => some none
    | some famIdx2 =>
      match firstElementIdx ((rootCh.getD famIdx2 default).children) "font" with
      | some f => some (some (famIdx2, f))
      | none => advanceLoop rootCh famIdx fuel

/-- Lines 207-214: `nextSibling(mFontNode, FONT_TAG)`, then the family loop
when no sibling font exists. -/
def nextFontPos (d : Doc) (famIdx fontIdx : Nat) (fuel : Nat) : Option (Option (Nat × Nat)) :=
  match nextSiblingIdx (familyChildren d famIdx) "font" fontIdx with
  | some f2 => some (some (famIdx, f2))
  | none => advanceLoop (rootChildren d) famIdx fuel

/-- `ASystemFontIterator_next` (lines 190-229), fueled.  The result is
`some (new state, some record)` for a yielded record,
`some (new state, none)` for "no more items", and `none` when the call does
not terminate within the fuel (the family loop spins or the skip recursion
runs out). -/
def ASystemFontIterator_next (env : Env) : Nat → IterState → Option (IterState × Option ASystemFont)
  | 0, _ => none
  | _ + 1, .exhausted => some (.exhausted, none)
  | _ + 1, .unstarted d =>
    match findFirstFontNode d with
    | none => some (.exhausted, none)
    | some (fi, gi) => some (.atNode d fi gi, some (copyFont d (fontNodeAt d fi gi)))
  | fuel + 1, .atNode d famIdx fontIdx =>
    match nextFontPos d famIdx fontIdx fuel with
    | none => none
    | some none => some (.exhausted, none)
    | some (some (fam2, f2)) =>
      let font := copyFont d (fontNodeAt d fam2 f2)
      if isFontFileAvailable env font.mFilePath then some (.atNode d fam2 f2, some font)
      else ASystemFontIterator_next env fuel (.atNode d fam2 f2)

/-- Outcomes of an API call that does not return normally. -/
inductive ApiError where
  | fatalAssert
  | nullDeref
deriving DecidableEq

/-- `ASystemFontIterator_close` (lines 186-188): `delete ite;` with no null
check — C++ `delete` of a null pointer is a no-op, so a null handle is
silently accepted. -/
def ASystemFontIterator_close (_h : Option IterState) : Except ApiError Unit :=
  Except.ok ()

/-- `ASystemFont_close` (lines 231-233): `delete font;`, likewise without a
null check. -/
def ASystemFont_close (_h : Option ASystemFont) : Except ApiError Unit :=
  Except.ok ()

/-- The `LOG_ALWAYS_FATAL_IF(ite == nullptr, ...)` guard of
`ASystemFontIterator_next` (line 191), wrapped around the state machine. -/
def ASystemFontIterator_nextChecked (env : Env) (fuel : Nat) (h : Option IterState) :
    Except ApiError (Option (IterState × Option ASystemFont)) :=
  match h with
  | none => Except.error ApiError.fatalAssert
  | some st => Except.ok (ASystemFontIterator_next env fuel st)

/-- `ASystemFont_getFontFilePath` (lines 235-238). -/
def ASystemFont_getFontFilePath : Option ASystemFont → Except ApiError String
  | none => Except.error ApiError.fatalAssert
  | some f => Except.ok f.mFilePath

/-- `ASystemFont_getWeight` (lines 240-243). -/
def ASystemFont_getWeight : Option ASystemFont → Except ApiError Nat
  | none => Except.error ApiError.fatalAssert
  | some f => Except.ok f.mWeight

/-- `ASystemFont_isItalic` (lines 245-248). -/
def ASystemFont_isItalic : Option ASystemFont → Except ApiError Bool
  | none => Except.error ApiError.fatalAssert
  | some f => Except.ok f.mItalic

/-- `ASystemFont_getLocale` (lines 250-253): after the null-handle guard the
body is `return font->mLocale ? nullptr : font->mLocale->c_str();` — when a
locale is stored it returns the null pointer, and when none is stored it
dereferences the null `mLocale` (modelled as `ApiError.nullDeref`). -/
def ASystemFont_getLocale : Option ASystemFont → Except ApiError (Option String)
  | none => Except.error ApiError.fatalAssert
  | some f =>
    match f.mLocale with
    | some _ => Except.ok none
    | none => Except.error ApiError.nullDeref

/-- `ASystemFont_getCollectionIndex` (lines 255-258). -/
def ASystemFont_getCollectionIndex : Option ASystemFont → Except ApiError Nat
  | none => Except.error ApiError.fatalAssert
  | some f => Except.ok f.mCollectionIndex

/-- `ASystemFont_getAxisCount` (lines 260-263). -/
def ASystemFont_getAxisCount : Option ASystemFont → Except ApiError Nat
  | none => Except.error ApiError.fatalAssert
  | some f => Except.ok f.mAxes.length

/-- `ASystemFont_getAxisTag` (lines 265-270): fatal on a null handle or an
out-of-bounds axis index. -/
def ASystemFont_getAxisTag : Option ASystemFont → Nat → Except ApiError Nat
  | none, _ => Except.error ApiError.fatalAssert
  | some f, i =>
    if i < f.mAxes.length then Except.ok (f.mAxes.getD i (0, 0)).1
    else Except.error ApiError.fatalAssert

/-- `ASystemFont_getAxisValue` (lines 272-277). -/
def ASystemFont_getAxisValue : Option ASystemFont → Nat → Except ApiError Rat
  | none, _ => Except.error ApiError.fatalAssert
  | some f, i =>
    if i < f.mAxes.length then Except.ok (f.mAxes.getD i (0, 0)).2
    else Except.error ApiError.fatalAssert

/-! ### Concrete documents and environments used as test vectors -/

/-- A text node, as produced by the XML parser for character data. -/
def textNode (s : String) : XmlNode := .node "text" [] s []

def fontA : XmlNode := .node "font" [] "" [textNode "a.ttf"]

def famA : XmlNode := .node "family" [] "" [fontA]

/-- A family with zero font children. -/
def famEmpty : XmlNode := .node "family" [] "" []

def fontC : XmlNode := .node "font" [] "" [textNode "c.ttf"]

def famC : XmlNode := .node "family" [] "" [fontC]

/-- Families: one font, then an empty family, then another font. -/
def docSkip : Doc := ⟨some (.node "familyset" [] "" [famA, famEmpty, famC])⟩

/-- A single family with a single font. -/
def docOne : Doc := ⟨some (.node "familyset" [] "" [famA])⟩

/-- A single family with two fonts. -/
def docTwo : Doc := ⟨some (.node "familyset" [] "" [.node "family" [] "" [fontA, fontC]])⟩

/-- A familyset whose only family has no fonts. -/
def docNoFont : Doc := ⟨some (.node "familyset" [] "" [famEmpty])⟩

/-- Every file exists and is regular. -/
def envAll : Env := ⟨fun _ => true⟩

/-- No file exists. -/
def envNone : Env := ⟨fun _ => false⟩

example : findFirstFontNode docSkip = some (0, 0) := by decide
example : findFirstFontNode docNoFont = none := by decide

/-- On `docSkip`, the family loop started from family 0 never finishes: it
re-reads the same empty next family at every iteration. -/
theorem advanceLoop_docSkip_none (n : Nat) :
    advanceLoop (rootChildren docSkip) 0 n = none := by
  induction n with
  | zero => rfl
  | succ k ih => exact ih

/-- C1: the claim says that from a font node with no later sibling font,
`next()` skips families with zero font children and completes.  On
`docSkip` (family 0 has one font, family 1 is empty, family 2 has a font),
a `next()` call from the font of family 0 instead re-reads
`nextSibling(mFontNode->parent, "family")` — always family 1 — on every
iteration of the `while (nextNode == nullptr)` loop and never terminates:
for every fuel the fueled model returns `none`.  The claim describes the
intended behavior (`findFirstFontNode` implements exactly this skip for the
first record, and the spec's advance rule demands it); the loop that fails
to advance `family` is a slip in the code. -/
theorem next_diverges_on_empty_middle_family (env : Env) (fuel : Nat) :
    ASystemFontIterator_next env fuel (.atNode docSkip 0 0) = none := by
  cases fuel with
  | zero => rfl
  | succ k =>
    have h2 : nextFontPos docSkip 0 0 k = none := advanceLoop_docSkip_none k
    simp only [ASystemFontIterator_next, h2]

/-! ### Field-extraction claims -/

/-- An empty document, used where `copyFont`'s document argument is
irrelevant. -/
def emptyDoc : Doc := ⟨none⟩

def fontPlain : XmlNode := .node "font" [] "" [textNode "a.ttf"]

def fontW700 : XmlNode := .node "font" [("weight", "700")] "" [textNode "a.ttf"]

def fontWabc : XmlNode := .node "font" [("weight", "abc")] "" [textNode "a.ttf"]

def fontItalic : XmlNode := .node "font" [("style", "italic")] "" [textNode "a.ttf"]

def fontItalicCap : XmlNode := .node "font" [("style", "Italic")] "" [textNode "a.ttf"]

/-- A family carrying `lang="en"` with one font child. -/
def famLangEn : XmlNode := .node "family" [("lang", "en")] "" [fontPlain]

def docLangEn : Doc := ⟨some (.node "familyset" [] "" [famLangEn])⟩

/-- C2: `copyFont` reads the `lang` attribute from `ite->mXmlDoc->parent`
(line 118).  A libxml2 document's parent pointer is always null, so the
produced record's locale is absent for every document and every font node —
even when the enclosing family carries `lang="en"` (second conjunct shows
the fixture family does carry it).  The claim (and the spec's data model)
say the locale should equal that attribute; the code binds it to a node
that cannot have attributes, a slip the spec itself flags in §9. -/
theorem copyFont_locale_always_none :
    (∀ (d : Doc) (n : XmlNode), (copyFont d n).mLocale = none) ∧
    xmlGetProp famLangEn "lang" = some "en" := by
  exact ⟨fun _ _ => rfl, by decide⟩

/-- C3 counterexample: a font node whose `weight` attribute is present but
non-numeric (`"abc"`).  The claim says the record's weight is 400; the code
stores `strtol("abc", nullptr, 10)`, which is 0. -/
theorem weight_parse_failure_yields_zero :
    (copyFont emptyDoc fontWabc).mWeight = 0 ∧ (copyFont emptyDoc fontWabc).mWeight ≠ 400 := by
  decide

/-- C3 amended: the record's weight is 400 only when the `weight` attribute
is absent; when the attribute is present the weight is the `strtol` base-10
parse narrowed to 16 bits, which is 0 — not 400 — for a value with no
leading digits.  Concrete instances: `"700"` gives 700, an absent attribute
gives 400. -/
theorem copyFont_weight_rule :
    (∀ (d : Doc) (n : XmlNode), xmlGetProp n "weight" = none → (copyFont d n).mWeight = 400) ∧
    (∀ (d : Doc) (n : XmlNode) (s : String), xmlGetProp n "weight" = some s →
      (copyFont d n).mWeight = toUInt16Wrap (strtol10 s)) ∧
    strtol10 "abc" = 0 ∧
    (copyFont emptyDoc fontW700).mWeight = 700 ∧
    (copyFont emptyDoc fontPlain).mWeight = 400 := by
  refine ⟨?_, ?_, by decide, by decide, by decide⟩
  · intro d n h
    simp [copyFont, h]
  · intro d n s h
    simp [copyFont, h]

theorem copyFont_weight_rule_witness :
    (copyFont emptyDoc fontPlain).mWeight = 400 ∧
    (copyFont emptyDoc fontWabc).mWeight = toUInt16Wrap (strtol10 "abc") :=
  ⟨copyFont_weight_rule.1 emptyDoc fontPlain rfl,
   copyFont_weight_rule.2.1 emptyDoc fontWabc "abc" rfl⟩

/-- C9: the record's italic flag is true exactly when the `style` attribute
is present and equals the exact string `"italic"` (line 111,
`xmlStrEqual`).  Concretely: `"italic"` yields true, `"Italic"` and an
absent attribute yield false. -/
theorem italic_iff_style_exact :
    (∀ (d : Doc) (n : XmlNode),
      (copyFont d n).mItalic = true ↔ xmlGetProp n "style" = some "italic") ∧
    (copyFont emptyDoc fontItalic).mItalic = true ∧
    (copyFont emptyDoc fontItalicCap).mItalic = false ∧
    (copyFont emptyDoc fontPlain).mItalic = false := by
  refine ⟨?_, by decide, by decide, by decide⟩
  intro d n
  cases h : xmlGetProp n "style" with
  | none => simp [copyFont, h]
  | some s => simp [copyFont, h]

theorem italic_iff_style_exact_witness :
    (copyFont emptyDoc fontItalic).mItalic = true :=
  (italic_iff_style_exact.1 emptyDoc fontItalic).mpr (by decide)

/-! ### Axis claims -/

def axisWght : XmlNode := .node "axis" [("tag", "wght"), ("stylevalue", "1.5")] "" []

/-- `stylevalue` present but not parseable as a number. -/
def axisBadValue : XmlNode := .node "axis" [("tag", "wght"), ("stylevalue", "abc")] "" []

/-- 3-character tag. -/
def axisShortTag : XmlNode := .node "axis" [("tag", "wgh"), ("stylevalue", "1.5")] "" []

/-- `stylevalue` attribute missing. -/
def axisNoValue : XmlNode := .node "axis" [("tag", "wght")] "" []

def fontAxisBad : XmlNode := .node "font" [] "" [textNode "a.ttf", axisBadValue]

def fontAxisMix : XmlNode :=
  .node "font" [] "" [textNode "a.ttf", axisWght, axisShortTag, axisNoValue]

/-- C4 counterexample: an axis child with `tag="wght"` and
`stylevalue="abc"` — the style value is present but fails to parse as a
number.  The claim says such an axis is silently dropped, so the record's
axes list would be empty; the code only checks that the attribute is
*present* and keeps the axis with `strtod`'s failure value 0. -/
theorem axes_unparsable_stylevalue_kept :
    (copyFont emptyDoc fontAxisBad).mAxes = [(2003265652, 0)] := by
  decide

/-- The amended axis-acceptance rule, stated from the amended claim's
words: keep an axis child exactly when its `tag` attribute is present with
byte length 4 and its `stylevalue` attribute is present (parseability is
not required); the kept value is the `strtod` parse, which is 0 for an
unparseable string. -/
def axisSpecEntry (a : XmlNode) : Option (Nat × Rat) :=
  match xmlGetProp a "tag", xmlGetProp a "stylevalue" with
  | some t, some sv => if xmlStrlenBytes t = 4 then some (packTag t, strtodQ sv) else none
  | _, _ => none

theorem axisEntry_eq_axisSpecEntry : axisEntry = axisSpecEntry := by
  funext a
  cases ht : xmlGetProp a "tag" with
  | none => simp [axisEntry, axisSpecEntry, ht]
  | some t =>
    cases hv : xmlGetProp a "stylevalue" with
    | none => simp [axisEntry, axisSpecEntry, ht, hv]
    | some sv => simp [axisEntry, axisSpecEntry, ht, hv]

/-- C4 amended: the record's axes list has one entry per `axis` child whose
`tag` attribute has exactly 4 bytes and whose `stylevalue` attribute is
present, in document order; an axis child missing the tag condition or the
`stylevalue` attribute is dropped, but one whose `stylevalue` is present
and unparseable is kept with value 0.  Concretely, of a 4-char/parseable
axis, a 3-char-tag axis and a no-stylevalue axis only the first survives;
the unparseable-stylevalue axis survives with value 0. -/
theorem copyFont_axes_rule :
    (∀ (d : Doc) (n : XmlNode),
      (copyFont d n).mAxes =
        (n.children.filter (fun c => c.name == "axis")).filterMap axisSpecEntry) ∧
    (copyFont emptyDoc fontAxisMix).mAxes = [(2003265652, mkRat 3 2)] ∧
    (copyFont emptyDoc fontAxisBad).mAxes = [(2003265652, 0)] := by
  refine ⟨?_, by decide, by decide⟩
  intro d n
  simp [copyFont, axisEntry_eq_axisSpecEntry]

/-- Every byte of a UTF-8 encoding is below 256. -/
theorem utf8Bytes_lt_256 (c : Char) : ∀ b ∈ utf8Bytes c, b < 256 := by
  intro b hb
  have hval : c.toNat < 1114112 := by
    have h := c.valid
    rcases h with h | h
    · exact lt_trans h (by norm_num)
    · exact h.2
  simp only [utf8Bytes] at hb
  split at hb
  · simp at hb
    omega
  · split at hb
    · simp at hb
      rcases hb with rfl | rfl <;> omega
    · split at hb
      · simp at hb
        rcases hb with rfl | rfl | rfl <;> omega
      · simp at hb
        rcases hb with rfl | rfl | rfl | rfl <;> omega

theorem strBytes_lt_256 (s : String) : ∀ b ∈ strBytes s, b < 256 := by
  intro b hb
  simp only [strBytes, List.mem_flatten] at hb
  obtain ⟨l, hl, hbl⟩ := hb
  simp only [List.mem_map] at hl
  obtain ⟨c, _, rfl⟩ := hl
  exact utf8Bytes_lt_256 c b hbl

/-- C8: for an axis child accepted by the loop (4-byte tag, present style
value), the packed tag is the 4 tag bytes packed big-endian — byte 0 in the
most significant position — and the value is the `strtod` parse.  For
`tag="wght"`, `stylevalue="1.5"` this is the big-endian byte sequence of
"wght" (0x77676874 = 2003265652) and the value 3/2. -/
theorem axis_tag_packed_bigendian :
    (∀ (a : XmlNode) (t sv : String) (b0 b1 b2 b3 : Nat),
      xmlGetProp a "tag" = some t → xmlGetProp a "stylevalue" = some sv →
      strBytes t = [b0, b1, b2, b3] →
      axisEntry a = some (b0 * 16777216 + b1 * 65536 + b2 * 256 + b3, strtodQ sv)) ∧
    axisEntry axisWght = some (2003265652, mkRat 3 2) ∧
    packTag "wght" = 2003265652 ∧ strtodQ "1.5" = mkRat 3 2 := by
  refine ⟨?_, by decide, by decide, by decide⟩
  intro a t sv b0 b1 b2 b3 ht hv hb
  have hlen : xmlStrlenBytes t = 4 := by rw [xmlStrlenBytes, hb]; rfl
  have h0 : b0 < 256 := strBytes_lt_256 t b0 (by rw [hb]; simp)
  have h1 : b1 < 256 := strBytes_lt_256 t b1 (by rw [hb]; simp)
  have h2 : b2 < 256 := strBytes_lt_256 t b2 (by rw [hb]; simp)
  have h3 : b3 < 256 := strBytes_lt_256 t b3 (by rw [hb]; simp)
  have hpack : packTag t = b0 * 16777216 + b1 * 65536 + b2 * 256 + b3 := by
    rw [packTag, hb]
    simp only [List.getD_cons_zero, List.getD_cons_succ]
    exact Nat.mod_eq_of_lt (by omega)
  simp [axisEntry, ht, hv, hlen, hpack]

theorem axis_tag_packed_bigendian_witness :
    axisEntry axisWght = some (119 * 16777216 + 103 * 65536 + 104 * 256 + 116, strtodQ "1.5") :=
  axis_tag_packed_bigendian.1 axisWght "wght" "1.5" 119 103 104 116 (by decide) (by decide)
    (by decide)

/-! ### Handle-contract claims -/

/-- C5 counterexample: `ASystemFontIterator_close` and `ASystemFont_close`
are plain `delete` with no null check, and C++ `delete` of a null pointer
is a well-defined no-op.  The claim says passing a null handle to close
aborts the process; instead both close calls on a null handle return
normally. -/
theorem close_null_is_silently_ignored :
    ASystemFontIterator_close none = Except.ok () ∧
    ASystemFont_close none = Except.ok () :=
  ⟨rfl, rfl⟩

/-- C5 amended: a null handle passed to `next` or to any record accessor
fires `LOG_ALWAYS_FATAL_IF` (a fatal contract violation), but a null handle
passed to either close function is silently accepted as a no-op, because
the close functions are an unchecked `delete`. -/
theorem null_handle_fatality_profile :
    (∀ (env : Env) (fuel : Nat),
      ASystemFontIterator_nextChecked env fuel none = Except.error ApiError.fatalAssert) ∧
    ASystemFont_getFontFilePath none = Except.error ApiError.fatalAssert ∧
    ASystemFont_getWeight none = Except.error ApiError.fatalAssert ∧
    ASystemFont_isItalic none = Except.error ApiError.fatalAssert ∧
    ASystemFont_getLocale none = Except.error ApiError.fatalAssert ∧
    ASystemFont_getCollectionIndex none = Except.error ApiError.fatalAssert ∧
    ASystemFont_getAxisCount none = Except.error ApiError.fatalAssert ∧
    (∀ i : Nat, ASystemFont_getAxisTag none i = Except.error ApiError.fatalAssert) ∧
    (∀ i : Nat, ASystemFont_getAxisValue none i = Except.error ApiError.fatalAssert) ∧
    ASystemFontIterator_close none = Except.ok () ∧
    ASystemFont_close none = Except.ok () :=
  ⟨fun _ _ => rfl, rfl, rfl, rfl, rfl, rfl, rfl, fun _ => rfl, fun _ => rfl, rfl, rfl⟩

/-- A record as the claim imagines one with a captured locale. -/
def fontRecWithLocale : ASystemFont :=
  ⟨"/system/fonts/a.ttf", some "en", 400, false, 0, []⟩

/-- A record with no captured locale — the shape every record actually
produced by `copyFont` has. -/
def fontRecNoLocale : ASystemFont :=
  ⟨"/system/fonts/a.ttf", none, 400, false, 0, []⟩

/-- C10: the body of `ASystemFont_getLocale` is
`return font->mLocale ? nullptr : font->mLocale->c_str();` (line 252) — the
ternary is inverted.  When a locale was captured it returns the null
pointer, and when none was captured it dereferences the null `mLocale`
pointer (a crash), the exact opposite of the claim.  Since `copyFont` never
captures a locale (C2), the dereference branch is the one every real
record takes. -/
theorem getLocale_inverted :
    (∀ (f : ASystemFont) (s : String), f.mLocale = some s →
      ASystemFont_getLocale (some f) = Except.ok none) ∧
    (∀ f : ASystemFont, f.mLocale = none →
      ASystemFont_getLocale (some f) = Except.error ApiError.nullDeref) := by
  constructor
  · intro f s h
    simp [ASystemFont_getLocale, h]
  · intro f h
    simp [ASystemFont_getLocale, h]

theorem getLocale_inverted_witness :
    ASystemFont_getLocale (some fontRecWithLocale) = Except.ok none ∧
    ASystemFont_getLocale (some fontRecNoLocale) = Except.error ApiError.nullDeref :=
  ⟨getLocale_inverted.1 fontRecWithLocale "en" rfl, getLocale_inverted.2 fontRecNoLocale rfl⟩

/-! ### Iterator state-machine claims -/

/-- C7: the exhausted configuration (`mXmlDoc = null`, `mFontNode = null`)
is terminal.  (i) Every `next` call on it returns "no more items"
immediately and leaves the state unchanged — the `exhausted` constructor
carries no document at all, so no tree access is possible.  (ii) Whenever
`next` returns "no more items" the resulting state is `exhausted`, i.e. the
document reference has been released.  (iii) A document that failed to
parse on open yields this configuration directly, so the first `next`
already returns "no more items". -/
theorem exhausted_terminal :
    (∀ (env : Env) (fuel : Nat),
      ASystemFontIterator_next env (fuel + 1) .exhausted = some (.exhausted, none)) ∧
    (∀ (env : Env) (fuel : Nat) (st st2 : IterState),
      ASystemFontIterator_next env fuel st = some (st2, none) → st2 = .exhausted) ∧
    (∀ (env : Env) (fuel : Nat),
      ASystemFontIterator_next env (fuel + 1) (iteratorOpen none) = some (.exhausted, none)) := by
  refine ⟨fun _ _ => rfl, ?_, fun _ _ => rfl⟩
  intro env fuel
  induction fuel with
  | zero =>
    intro st st2 h
    simp [ASystemFontIterator_next] at h
  | succ k ih =>
    intro st st2 h
    cases st with
    | exhausted =>
      simp only [ASystemFontIterator_next, Option.some.injEq, Prod.mk.injEq] at h
      exact h.1.symm
    | unstarted d =>
      cases hf : findFirstFontNode d with
      | none =>
        simp only [ASystemFontIterator_next, hf, Option.some.injEq, Prod.mk.injEq] at h
        exact h.1.symm
      | some p =>
        cases p with
        | mk fi gi =>
          simp [ASystemFontIterator_next, hf] at h
    | atNode d famIdx fontIdx =>
      cases hp : nextFontPos d famIdx fontIdx k with
      | none =>
        simp [ASystemFontIterator_next, hp] at h
      | some r =>
        cases r with
        | none =>
          simp only [ASystemFontIterator_next, hp, Option.some.injEq, Prod.mk.injEq] at h
          exact h.1.symm
        | some q =>
          cases q with
          | mk fam2 f2 =>
            simp only [ASystemFontIterator_next, hp] at h
            by_cases hA :
                isFontFileAvailable env (copyFont d (fontNodeAt d fam2 f2)).mFilePath = true
            · simp [hA] at h
            · simp only [Bool.not_eq_true] at hA
              simp only [hA, if_false] at h
              exact ih (.atNode d fam2 f2) st2 h

theorem exhausted_terminal_witness :
    ASystemFontIterator_next envAll 1 .exhausted = some (.exhausted, none) ∧
    IterState.exhausted = IterState.exhausted ∧
    ASystemFontIterator_next envAll 1 (iteratorOpen none) = some (.exhausted, none) :=
  ⟨exhausted_terminal.1 envAll 0,
   exhausted_terminal.2.1 envAll 2 (.atNode docOne 0 0) .exhausted rfl,
   exhausted_terminal.2.2 envAll 0⟩

/-- C6: the availability filter is asymmetric.
(i) From the unstarted state, when a first font node exists, `next` returns
its record with *no* availability check: the equation holds for every
environment, including one where no file exists.
(ii) From an at-node state, every record `next` returns has
`isFontFileAvailable` true in the given environment at the time of the
call.
(iii) When the node the advance reaches has an unavailable file, the record
is discarded and the call continues — tail-recursively in the source — from
the following font node. -/
theorem availability_filter_asymmetry :
    (∀ (env : Env) (d : Doc) (fi gi fuel : Nat),
      findFirstFontNode d = some (fi, gi) →
      ASystemFontIterator_next env (fuel + 1) (.unstarted d) =
        some (.atNode d fi gi, some (copyFont d (fontNodeAt d fi gi)))) ∧
    (∀ (env : Env) (d : Doc) (fuel fam f : Nat) (st2 : IterState) (rec : ASystemFont),
      ASystemFontIterator_next env fuel (.atNode d fam f) = some (st2, some rec) →
      isFontFileAvailable env rec.mFilePath = true) ∧
    (∀ (env : Env) (d : Doc) (fuel fam f fam2 f2 : Nat),
      nextFontPos d fam f fuel = some (some (fam2, f2)) →
      isFontFileAvailable env (copyFont d (fontNodeAt d fam2 f2)).mFilePath = false →
      ASystemFontIterator_next env (fuel + 1) (.atNode d fam f) =
        ASystemFontIterator_next env fuel (.atNode d fam2 f2)) := by
  refine ⟨?_, ?_, ?_⟩
  · intro env d fi gi fuel hf
    simp [ASystemFontIterator_next, hf]
  · intro env d fuel
    induction fuel with
    | zero =>
      intro fam f st2 rec h
      simp [ASystemFontIterator_next] at h
    | succ k ih =>
      intro fam f st2 rec h
      cases hp : nextFontPos d fam f k with
      | none =>
        simp [ASystemFontIterator_next, hp] at h
      | some r =>
        cases r with
        | none =>
          simp [ASystemFontIterator_next, hp] at h
        | some q =>
          cases q with
          | mk fam2 f2 =>
            simp only [ASystemFontIterator_next, hp] at h
            by_cases hA :
                isFontFileAvailable env (copyFont d (fontNodeAt d fam2 f2)).mFilePath = true
            · simp only [hA, if_true, Option.some.injEq, Prod.mk.injEq] at h
              rw [← h.2]
              exact hA
            · simp only [Bool.not_eq_true] at hA
              simp only [hA, if_false] at h
              exact ih fam2 f2 st2 rec h
  · intro env d fuel fam f fam2 f2 h1 h2
    simp [ASystemFontIterator_next, h1, h2]

theorem availability_filter_asymmetry_witness :
    ASystemFontIterator_next envNone 1 (.unstarted docOne) =
      some (.atNode docOne 0 0, some (copyFont docOne (fontNodeAt docOne 0 0))) ∧
    isFontFileAvailable envAll (copyFont docTwo (fontNodeAt docTwo 0 1)).mFilePath = true ∧
    ASystemFontIterator_next envNone 1 (.atNode docTwo 0 0) =
      ASystemFontIterator_next envNone 0 (.atNode docTwo 0 1) :=
  ⟨availability_filter_asymmetry.1 envNone docOne 0 0 0 rfl,
   availability_filter_asymmetry.2.1 envAll docTwo 1 0 0 (.atNode docTwo 0 1)
     (copyFont docTwo (fontNodeAt docTwo 0 1)) rfl,
   availability_filter_asymmetry.2.2 envNone docTwo 0 0 0 0 1 rfl rfl⟩
